import Mathlib

/-!
Verification of the CBOR streaming reader of `src/sdk/src/azure/core/az_cbor_reader.c`
(together with the bit-stack helpers of `src/sdk/src/azure/core/az_cbor_private.h` and
the data model of `src/sdk/inc/azure/core/az_cbor.h`).

Modelling conventions:
* Machine integers are modelled as `Nat` (sizes, indices, byte values, `uint32_t`
  counters) or `Int` (fields that use the `-1` sentinel, and the `int32_t`
  `current_depth`).  The `uint64_t` bit-stack word is a `Nat` reduced mod `2 ^ 64`
  on every left shift.
* An `az_span` over bytes is a `List Nat` of byte values.
* C functions that mutate the reader through a pointer become functions from the
  reader state to a pair of the result code and the updated state; out-parameters
  become extra components of the returned tuple.
* `az_span_ptr(s)[i]` (an unchecked pointer read) is modelled by `List.getD s i 0`;
  whether such a fetch is actually in bounds is tracked by a separate predicate
  where a claim is about bounds.
* The two C `while (true)` loops that walk across input segments
  (`_az_cbor_reader_consume_digits`, `_az_cbor_reader_process_literal`) and the
  `do/while` loop of `az_cbor_reader_skip_children` are modelled with an explicit
  fuel parameter; every iteration of the C loops either terminates the loop or
  advances `buffer_index` (which is bounded by `number_of_buffers`), so a fuel of
  `number_of_buffers + 1` makes the fuel-exhaustion branch unreachable.
-/

/-- Modelled from the spec: the generic result/error-code type (`az_result`,
declared in a header that is not under `src/`) is an external collaborator; the
spec lists its values as names.  `readerDone` is the spec's `ReaderDone`
done-signal (the source spells it `AZ_ERROR_CBOR_READER_DONE` or
`AZ_ERROR_JSON_READER_DONE`). -/
inductive AzResult where
  | ok
  | unexpectedEnd
  | unexpectedChar
  | nestingOverflow
  | readerDone
  | invalidState
deriving DecidableEq, Repr

/-- The token-kind discriminator `az_cbor_token_kind` of `az_cbor.h`. -/
inductive az_cbor_token_kind where
  | none
  | beginObject
  | endObject
  | beginArray
  | endArray
  | propertyName
  | string
  | number
  | tokTrue
  | tokFalse
  | tokNull
deriving DecidableEq, Repr

/-- The container-kind bit `_az_cbor_stack_item` of `az_cbor_private.h`
(`_az_CBOR_STACK_OBJECT = 1`, `_az_CBOR_STACK_ARRAY = 0`). -/
inductive _az_cbor_stack_item where
  | object
  | array
deriving DecidableEq, Repr

/-- The numeric value of a `_az_cbor_stack_item` (the C enum values). -/
def _az_cbor_stack_item.toNat : _az_cbor_stack_item → Nat
  | .object => 1
  | .array => 0

/-- The bit stack `_az_cbor_bit_stack` of `az_cbor.h` (the `_internal` struct
flattened): a `uint64_t` word of container bits plus an `int32_t` depth. -/
structure _az_cbor_bit_stack where
  az_cbor_stack : Nat
  current_depth : Int
deriving DecidableEq, Repr

/-- `_az_MAX_cbor_STACK_SIZE` of `az_cbor_private.h`: 64 bits in the stack word. -/
def _az_MAX_cbor_STACK_SIZE : Nat := 64

/-- `_az_cbor_stack_pop` of `az_cbor_private.h`: shift the word right by one and
decrement the depth (guarded against depth 0), then read the low bit of the
word as it stands after the shift. -/
def _az_cbor_stack_pop (s : _az_cbor_bit_stack) : _az_cbor_stack_item × _az_cbor_bit_stack :=
  let s :=
    if s.current_depth ≠ 0 then
      { az_cbor_stack := s.az_cbor_stack >>> 1, current_depth := s.current_depth - 1 }
    else s
  (if s.az_cbor_stack &&& 1 ≠ 0 then _az_cbor_stack_item.object else _az_cbor_stack_item.array, s)

/-- `_az_cbor_stack_push` of `az_cbor_private.h`: increment the depth, shift the
word left by one (a `uint64_t`, hence mod `2 ^ 64`) and OR in the item bit. -/
def _az_cbor_stack_push (s : _az_cbor_bit_stack) (item : _az_cbor_stack_item) :
    _az_cbor_bit_stack :=
  { current_depth := s.current_depth + 1,
    az_cbor_stack := ((s.az_cbor_stack <<< 1) ||| item.toNat) % 2 ^ 64 }

/-- `_az_cbor_stack_peek` of `az_cbor_private.h`: read the low bit without mutation. -/
def _az_cbor_stack_peek (s : _az_cbor_bit_stack) : _az_cbor_stack_item :=
  if s.az_cbor_stack &&& 1 ≠ 0 then _az_cbor_stack_item.object else _az_cbor_stack_item.array

/-- Modelled from the spec: `az_span_size`, a primitive of the byte-slice
container (an external collaborator whose source is not under `src/`). -/
def az_span_size (s : List Nat) : Nat := s.length

/-- Modelled from the spec: `az_span_slice_to_end`, the suffix of a span from a
byte offset. -/
def az_span_slice_to_end (s : List Nat) (i : Nat) : List Nat := s.drop i

/-- Modelled from the spec: `az_span_slice s a b`, the bytes of `s` at indices
`[a, b)`. -/
def az_span_slice (s : List Nat) (a b : Nat) : List Nat := (s.take b).drop a

/-- Modelled from the spec: `az_span_is_content_equal`, byte-wise equality. -/
def az_span_is_content_equal (a b : List Nat) : Bool := a = b

/-- Modelled from the spec: `az_span_find source target`, the first index at
which `target` occurs as a contiguous sub-span of `source`, or `-1`. -/
def az_span_find (source target : List Nat) : Int :=
  match (List.range (source.length + 1)).find?
      (fun i => decide (i + target.length ≤ source.length ∧
        (az_span_slice source i (i + target.length)) = target)) with
  | some i => (i : Int)
  | Option.none => -1

/-- The unchecked pointer read `az_span_ptr(s)[i]`; out-of-bounds reads (which
are undefined behaviour in the C source) are modelled as the byte 0. -/
def az_span_ptr_get (s : List Nat) (i : Nat) : Nat := s.getD i 0

/-- C `isdigit` on a byte value in the C locale: the ASCII digits. -/
def isdigit (b : Nat) : Bool := 0x30 ≤ b && b ≤ 0x39

/-- `_az_min` of `az_cbor_reader.c`. -/
def _az_min (a b : Nat) : Nat := if a < b then a else b

/-- The token record `az_cbor_token` of `az_cbor.h`, with the `_internal` struct
flattened (the `pointer_to_first_buffer` field, pure provenance documentation,
is omitted; no claim concerns it). -/
structure az_cbor_token where
  kind : az_cbor_token_kind
  slice : List Nat
  size : Nat
  is_multisegment : Bool
  string_has_escaped_chars : Bool
  start_buffer_index : Int
  start_buffer_offset : Int
  end_buffer_index : Int
  end_buffer_offset : Int
deriving DecidableEq, Repr

/-- The reader state `az_cbor_reader` of `az_cbor.h` with `_internal` flattened.
The `element_type` / `element_len` arrays (`uint32_t[256]`, indexed by the
`int32_t` depth in the source) are modelled as total functions from `Int`; the
empty `options` record (the spec: recognized options are none) is omitted. -/
structure az_cbor_reader where
  token : az_cbor_token
  cbor_buffer : List Nat
  cbor_buffers : List (List Nat)
  number_of_buffers : Nat
  buffer_index : Nat
  bytes_consumed : Nat
  total_bytes_consumed : Nat
  is_complex_cbor : Bool
  element_type : Int → Nat
  element_len : Int → Nat
  bit_stack : _az_cbor_bit_stack

/-- Pointwise update of a modelled C array at one index. -/
def updFun (f : Int → Nat) (i : Int) (v : Nat) : Int → Nat :=
  fun j => if j = i then v else f j

/-- `az_cbor_reader_init` of `az_cbor_reader.c` (the unused options argument is
dropped; members the compound literal leaves unmentioned are zero-initialized). -/
def az_cbor_reader_init (cbor_buffer : List Nat) : az_cbor_reader :=
  { token :=
      { kind := .none, slice := [], size := 0, is_multisegment := false,
        string_has_escaped_chars := false, start_buffer_index := -1,
        start_buffer_offset := -1, end_buffer_index := -1, end_buffer_offset := -1 },
    cbor_buffer := cbor_buffer,
    cbor_buffers := [[]],
    number_of_buffers := 1,
    buffer_index := 0,
    bytes_consumed := 0,
    total_bytes_consumed := 0,
    is_complex_cbor := false,
    element_type := fun _ => 0,
    element_len := fun _ => 0,
    bit_stack := { az_cbor_stack := 0, current_depth := 0 } }

/-- `az_cbor_reader_chunked_init` of `az_cbor_reader.c`; the C
`number_of_buffers` argument is the length of the buffer list. -/
def az_cbor_reader_chunked_init (cbor_buffers : List (List Nat)) : az_cbor_reader :=
  { token :=
      { kind := .none, slice := [], size := 0, is_multisegment := false,
        string_has_escaped_chars := false, start_buffer_index := -1,
        start_buffer_offset := -1, end_buffer_index := -1, end_buffer_offset := -1 },
    cbor_buffer := cbor_buffers.getD 0 [],
    cbor_buffers := cbor_buffers,
    number_of_buffers := cbor_buffers.length,
    buffer_index := 0,
    bytes_consumed := 0,
    total_bytes_consumed := 0,
    is_complex_cbor := false,
    element_type := fun _ => 0,
    element_len := fun _ => 0,
    bit_stack := { az_cbor_stack := 0, current_depth := 0 } }

/-- `_get_remaining_cbor` of `az_cbor_reader.c`. -/
def _get_remaining_cbor (r : az_cbor_reader) : List Nat :=
  az_span_slice_to_end r.cbor_buffer r.bytes_consumed

/-- `_az_cbor_reader_update_state` of `az_cbor_reader.c`. -/
def _az_cbor_reader_update_state (r : az_cbor_reader) (token_kind : az_cbor_token_kind)
    (token_slice : List Nat) (current_segment_consumed : Nat) (consumed : Nat) :
    az_cbor_reader :=
  let bytes_consumed := r.bytes_consumed + current_segment_consumed
  let end_index : Int := (r.buffer_index : Int)
  let start_index := r.token.start_buffer_index
  { r with
    bytes_consumed := bytes_consumed,
    total_bytes_consumed := r.total_bytes_consumed + current_segment_consumed,
    token :=
      { r.token with
        kind := token_kind,
        size := consumed,
        end_buffer_index := end_index,
        end_buffer_offset := (bytes_consumed : Int),
        is_multisegment := decide (start_index ≠ -1 ∧ start_index < end_index),
        slice := token_slice } }

/-- `_az_cbor_reader_get_next_buffer` of `az_cbor_reader.c`.  Returns the result
code, the updated reader and the `remaining` out-parameter (unchanged from the
caller's `remaining` argument on the failure paths, as in the source). -/
def _az_cbor_reader_get_next_buffer (r : az_cbor_reader) (remaining : List Nat)
    (skip_whitespace : Bool) : AzResult × az_cbor_reader × List Nat :=
  if r.buffer_index ≥ r.number_of_buffers - 1 then
    (.unexpectedEnd, r, remaining)
  else
    let r :=
      if skip_whitespace = false ∧ r.token.start_buffer_index = -1 then
        { r with token :=
            { r.token with
              start_buffer_index := (r.buffer_index : Int),
              start_buffer_offset := (r.bytes_consumed : Int) } }
      else r
    let buffer_index := r.buffer_index + 1
    let r :=
      { r with
        buffer_index := buffer_index,
        cbor_buffer := r.cbor_buffers.getD buffer_index [],
        bytes_consumed := 0 }
    let place_holder := _get_remaining_cbor r
    if az_span_size place_holder < 1 then (.unexpectedEnd, r, remaining)
    else (.ok, r, place_holder)

/-- `_az_cbor_reader_process_container_end` of `az_cbor_reader.c`. -/
def _az_cbor_reader_process_container_end (r : az_cbor_reader)
    (token_kind : az_cbor_token_kind) : AzResult × az_cbor_reader :=
  if (token_kind = .endObject ∧
        _az_cbor_stack_peek r.bit_stack ≠ _az_cbor_stack_item.object) ∨
      (token_kind = .endArray ∧
        _az_cbor_stack_peek r.bit_stack ≠ _az_cbor_stack_item.array) then
    (.unexpectedChar, r)
  else
    let token := _get_remaining_cbor r
    let r := { r with bit_stack := (_az_cbor_stack_pop r.bit_stack).2 }
    (.ok, _az_cbor_reader_update_state r token_kind
      (if az_span_size token ≠ 0 then az_span_slice token 0 1 else []) 0 1)

/-- `_az_cbor_reader_process_container_start` of `az_cbor_reader.c`. -/
def _az_cbor_reader_process_container_start (r : az_cbor_reader)
    (token_kind : az_cbor_token_kind) (container_kind : _az_cbor_stack_item) :
    AzResult × az_cbor_reader :=
  if r.bit_stack.current_depth ≥ (_az_MAX_cbor_STACK_SIZE : Int) then
    (.nestingOverflow, r)
  else
    let token := _get_remaining_cbor r
    let r := { r with bit_stack := _az_cbor_stack_push r.bit_stack container_kind }
    (.ok, _az_cbor_reader_update_state r token_kind (az_span_slice token 0 1) 1 1)

/-- `_az_cbor_get_length` of `az_cbor_reader.c`, the §4.4 header-length decoder.
The `else if` cascade is transcribed as in the source: since every
`type_id ≥ 0x18` is caught by the second branch, the 2-byte, 4-byte and error
branches below it are dead code there.  The out-parameters are returned as
`(element_length, token_header_len)`; on the error branches the source leaves
them unassigned (returned here as 0). -/
def _az_cbor_get_length (type_id : Nat) (token_ptr : List Nat) : AzResult × Nat × Nat :=
  if 0x00 ≤ type_id ∧ type_id ≤ 0x17 then
    (.ok, type_id - 0x00, 0)
  else if type_id ≥ 0x18 then
    (.ok, az_span_ptr_get token_ptr 1, 1)
  else if type_id ≥ 0x19 then
    (.ok, (az_span_ptr_get token_ptr 1) <<< 8 ||| az_span_ptr_get token_ptr 2, 2)
  else if type_id ≥ 0x1A then
    (.ok,
      (az_span_ptr_get token_ptr 1) <<< 24 ||| (az_span_ptr_get token_ptr 2) <<< 16 |||
        (az_span_ptr_get token_ptr 3) <<< 8 ||| az_span_ptr_get token_ptr 4,
      4)
  else if type_id ≥ 0x0B then
    (.unexpectedChar, 0, 0)
  else
    (.unexpectedChar, 0, 0)

/-- `_az_cbor_reader_process_string` of `az_cbor_reader.c`.  The `type_id`
argument `next_byte - 0x60` is computed in the `uint8_t` parameter type, i.e.
mod 256. -/
def _az_cbor_reader_process_string (r : az_cbor_reader) : AzResult × az_cbor_reader :=
  let token := _get_remaining_cbor r
  let step :=
    if az_span_size token < 1 then _az_cbor_reader_get_next_buffer r token false
    else (.ok, r, token)
  match step with
  | (.ok, r, token) =>
    let next_byte := az_span_ptr_get token 0
    match _az_cbor_get_length ((next_byte + 256 - 0x60) % 256) token with
    | (.ok, string_length, token_header_len) =>
      let remaining_size : Int := (az_span_size token : Int) - (token_header_len : Int)
      let current_index := token_header_len + string_length
      let step2 :=
        if (current_index : Int) ≥ remaining_size then
          match _az_cbor_reader_get_next_buffer r token false with
          | (.ok, r, token) => (AzResult.ok, r, token, 0)
          | (res, r, token) => (res, r, token, current_index)
        else (AzResult.ok, r, token, current_index)
      match step2 with
      | (.ok, r, token, current_index) =>
        (.ok, _az_cbor_reader_update_state r .string
          (az_span_slice token (token_header_len + 1) (current_index + 1))
          (current_index + 1) string_length)
      | (res, r, _, _) => (res, r)
    | (res, _, _) => (res, r)
  | (res, r, _) => (res, r)

/-- `_az_cbor_reader_process_property_name` of `az_cbor_reader.c`: parse the
string wire form, then relabel the token kind. -/
def _az_cbor_reader_process_property_name (r : az_cbor_reader) : AzResult × az_cbor_reader :=
  match _az_cbor_reader_process_string r with
  | (.ok, r) => (.ok, { r with token := { r.token with kind := .propertyName } })
  | (res, r) => (res, r)

/-- `cbor_delimiters` of `az_cbor_reader.c`: the bytes of the C string
literal containing comma, closing brace, closing bracket, space, LF, CR, TAB. -/
def cbor_delimiters : List Nat := [0x2C, 0x7D, 0x5D, 0x20, 0x0A, 0x0D, 0x09]

/-- `_az_finished_consuming_cbor_number` of `az_cbor_reader.c`.  The returned
pair is (the C return value, the `out_result` out-parameter; on the
`false` path the caller's initial `AZ_OK` is left in place). -/
def _az_finished_consuming_cbor_number (next_byte : Nat) (expected_next_bytes : List Nat) :
    Bool × AzResult :=
  if az_span_find cbor_delimiters [next_byte] ≠ -1 then (true, .ok)
  else if az_span_find expected_next_bytes [next_byte] = -1 then (true, .unexpectedChar)
  else (false, .ok)

/-- The inner `while` loop of `_az_cbor_reader_consume_digits`: the number of
leading ASCII-digit bytes of the span. -/
def _az_count_leading_digits : List Nat → Nat
  | [] => 0
  | b :: rest => if isdigit b then _az_count_leading_digits rest + 1 else 0

/-- `_az_cbor_reader_consume_digits` of `az_cbor_reader.c`.  The outer
`while (true)` loop is modelled with fuel (see the module comment); the
returned tuple is (reader, `token`, `current_consumed`, `total_consumed`). -/
def _az_cbor_reader_consume_digits (fuel : Nat) (r : az_cbor_reader) (token : List Nat)
    (current_consumed total_consumed : Nat) : az_cbor_reader × List Nat × Nat × Nat :=
  match fuel with
  | 0 => (r, token, current_consumed, total_consumed)
  | Nat.succ fuel =>
    let current := az_span_slice_to_end token current_consumed
    let counter := _az_count_leading_digits current
    if counter = az_span_size current then
      match _az_cbor_reader_get_next_buffer r token false with
      | (.ok, r, token) =>
        _az_cbor_reader_consume_digits fuel r token 0 (total_consumed + counter)
      | (_, r, _) => (r, token, current_consumed + counter, total_consumed + counter)
    else (r, token, current_consumed + counter, total_consumed + counter)

/-- `_az_validate_next_byte_is_digit` of `az_cbor_reader.c`.  The returned tuple
is (result, reader, `remaining_number`, `current_consumed`). -/
def _az_validate_next_byte_is_digit (r : az_cbor_reader) (remaining_number : List Nat)
    (current_consumed : Nat) : AzResult × az_cbor_reader × List Nat × Nat :=
  let current := az_span_slice_to_end remaining_number current_consumed
  let step :=
    if az_span_size current < 1 then
      match _az_cbor_reader_get_next_buffer r remaining_number false with
      | (.ok, r, remaining_number) => (AzResult.ok, r, remaining_number, remaining_number, 0)
      | (res, r, rem) => (res, r, rem, current, current_consumed)
    else (AzResult.ok, r, remaining_number, current, current_consumed)
  match step with
  | (.ok, r, remaining_number, current, current_consumed) =>
    if isdigit (az_span_ptr_get current 0) = false then
      (.unexpectedChar, r, remaining_number, current_consumed)
    else
      (.ok, r, remaining_number, current_consumed)
  | (res, r, remaining_number, _, current_consumed) => (res, r, remaining_number, current_consumed)

/-- `_az_cbor_reader_update_number_state_if_single_value` of `az_cbor_reader.c`. -/
def _az_cbor_reader_update_number_state_if_single_value (r : az_cbor_reader)
    (token_slice : List Nat) (current_consumed total_consumed : Nat) :
    AzResult × az_cbor_reader :=
  if r.is_complex_cbor then (.unexpectedEnd, r)
  else
    (.ok, _az_cbor_reader_update_state r .number token_slice current_consumed total_consumed)

/-- The refill-or-single-value motif that `_az_cbor_reader_process_number`
repeats at lines 463-477, 502-516, 547-561 and 605-620 of `az_cbor_reader.c`:
when `current_consumed` has reached the end of `token`, fetch the next
segment; if none is available, end the number here (valid only for a
single-value payload); `Except.error` carries the early return. -/
def _az_cbor_number_refill (r : az_cbor_reader) (token : List Nat)
    (current_consumed total_consumed : Nat) :
    Except (AzResult × az_cbor_reader) (az_cbor_reader × List Nat × Nat × Nat) :=
  if current_consumed ≥ az_span_size token then
    match _az_cbor_reader_get_next_buffer r token false with
    | (.ok, r, token) => .ok (r, token, 0, total_consumed)
    | (_, r, _) =>
      .error (_az_cbor_reader_update_number_state_if_single_value r
        (az_span_slice token 0 current_consumed) current_consumed total_consumed)
  else .ok (r, token, current_consumed, total_consumed)

/-- The refill motif at lines 585-589 of `az_cbor_reader.c` (after the
exponent character): as `_az_cbor_number_refill` but any fetch failure is
propagated unchanged (`_az_RETURN_IF_FAILED`). -/
def _az_cbor_number_refill_propagate (r : az_cbor_reader) (token : List Nat)
    (current_consumed total_consumed : Nat) :
    Except (AzResult × az_cbor_reader) (az_cbor_reader × List Nat × Nat × Nat) :=
  if current_consumed ≥ az_span_size token then
    match _az_cbor_reader_get_next_buffer r token false with
    | (.ok, r, token) => .ok (r, token, 0, total_consumed)
    | (res, r, _) => .error (res, r)
  else .ok (r, token, current_consumed, total_consumed)

/-- The are-we-done motif that `_az_cbor_reader_process_number` repeats at
lines 479-493, 518-532 and 563-577 of `az_cbor_reader.c`: read the byte at
`current_consumed`, ask `_az_finished_consuming_cbor_number` whether the
number ends here, and if so either record the `Number` token (`AZ_OK`) or
propagate the failure; otherwise continue with that byte. -/
def _az_cbor_number_finish (r : az_cbor_reader) (token : List Nat)
    (current_consumed total_consumed : Nat) (expected_next_bytes : List Nat) :
    Except (AzResult × az_cbor_reader) (az_cbor_reader × List Nat × Nat × Nat × Nat) :=
  let next_byte := az_span_ptr_get token current_consumed
  match _az_finished_consuming_cbor_number next_byte expected_next_bytes with
  | (true, res) =>
    .error
      (match res with
        | .ok =>
          (AzResult.ok, _az_cbor_reader_update_state r .number
            (az_span_slice token 0 current_consumed) current_consumed total_consumed)
        | _ => (res, r))
  | (false, _) => .ok (r, token, current_consumed, total_consumed, next_byte)

/-- Lines 445-456 of `_az_cbor_reader_process_number`: the optional leading
minus sign, which must be followed by a digit.  `Except.error` carries an
early return; `Except.ok` carries (reader, `token`, `current_consumed`,
`total_consumed`, `next_byte`). -/
def _az_cbor_number_minus_stage (r : az_cbor_reader) (token : List Nat) (next_byte : Nat) :
    Except (AzResult × az_cbor_reader) (az_cbor_reader × List Nat × Nat × Nat × Nat) :=
  if next_byte = 0x2D then
    match _az_validate_next_byte_is_digit r token 1 with
    | (.ok, r, token, current_consumed) =>
      .ok (r, token, current_consumed, 1, az_span_ptr_get token current_consumed)
    | (res, r, _, _) => .error (res, r)
  else .ok (r, token, 0, 0, next_byte)

/-- Lines 458-533 of `_az_cbor_reader_process_number`: the integer part — the
leading-zero branch or the digits branch, each followed by the refill and
end-of-number motifs (the C asserts `isdigit(next_byte)` at the top of the
digits branch; the assertion compiles out in release builds). -/
def _az_cbor_number_int_stage (r : az_cbor_reader) (token : List Nat)
    (current_consumed total_consumed next_byte : Nat) :
    Except (AzResult × az_cbor_reader) (az_cbor_reader × List Nat × Nat × Nat × Nat) :=
  if next_byte = 0x30 then
    match _az_cbor_number_refill r token (current_consumed + 1) (total_consumed + 1) with
    | .error out => .error out
    | .ok (r, token, current_consumed, total_consumed) =>
      _az_cbor_number_finish r token current_consumed total_consumed [0x2E, 0x65, 0x45]
  else
    match _az_cbor_reader_consume_digits (r.number_of_buffers + 1) r token
        current_consumed total_consumed with
    | (r, token, current_consumed, total_consumed) =>
      match _az_cbor_number_refill r token current_consumed total_consumed with
      | .error out => .error out
      | .ok (r, token, current_consumed, total_consumed) =>
        _az_cbor_number_finish r token current_consumed total_consumed [0x2E, 0x65, 0x45]

/-- Lines 535-578 of `_az_cbor_reader_process_number`: the optional fractional
part after a decimal point, which must be followed by a digit. -/
def _az_cbor_number_dot_stage (r : az_cbor_reader) (token : List Nat)
    (current_consumed total_consumed next_byte : Nat) :
    Except (AzResult × az_cbor_reader) (az_cbor_reader × List Nat × Nat × Nat × Nat) :=
  if next_byte = 0x2E then
    match _az_validate_next_byte_is_digit r token (current_consumed + 1) with
    | (.ok, r, token, current_consumed) =>
      (match _az_cbor_reader_consume_digits (r.number_of_buffers + 1) r token
          current_consumed (total_consumed + 1) with
      | (r, token, current_consumed, total_consumed) =>
        match _az_cbor_number_refill r token current_consumed total_consumed with
        | .error out => .error out
        | .ok (r, token, current_consumed, total_consumed) =>
          _az_cbor_number_finish r token current_consumed total_consumed [0x65, 0x45])
    | (res, r, _, _) => .error (res, r)
  else .ok (r, token, current_consumed, total_consumed, next_byte)

/-- Lines 580-637 of `_az_cbor_reader_process_number`: the exponent — move
past the exponent character, the optional sign (which must be followed by a
digit), the digits, and the final delimiter check that records the `Number`
token. -/
def _az_cbor_number_exp_stage (r : az_cbor_reader) (token : List Nat)
    (current_consumed total_consumed : Nat) : AzResult × az_cbor_reader :=
  match _az_cbor_number_refill_propagate r token (current_consumed + 1)
      (total_consumed + 1) with
  | .error out => out
  | .ok (r, token, current_consumed, total_consumed) =>
    let next_byte := az_span_ptr_get token current_consumed
    let signStep : Except (AzResult × az_cbor_reader)
        (az_cbor_reader × List Nat × Nat × Nat) :=
      if next_byte = 0x2D ∨ next_byte = 0x2B then
        match _az_validate_next_byte_is_digit r token (current_consumed + 1) with
        | (.ok, r, token, current_consumed) =>
          .ok (r, token, current_consumed, total_consumed + 1)
        | (res, r, _, _) => .error (res, r)
      else .ok (r, token, current_consumed, total_consumed)
    match signStep with
    | .error out => out
    | .ok (r, token, current_consumed, total_consumed) =>
      match _az_cbor_reader_consume_digits (r.number_of_buffers + 1) r token
          current_consumed total_consumed with
      | (r, token, current_consumed, total_consumed) =>
        match _az_cbor_number_refill r token current_consumed total_consumed with
        | .error out => out
        | .ok (r, token, current_consumed, total_consumed) =>
          let next_byte := az_span_ptr_get token current_consumed
          if az_span_find cbor_delimiters [next_byte] = -1 then
            (.unexpectedChar, r)
          else
            (.ok, _az_cbor_reader_update_state r .number
              (az_span_slice token 0 current_consumed) current_consumed total_consumed)

/-- `_az_cbor_reader_process_number` of `az_cbor_reader.c`: the textual
(JSON-style) number tokenizer, as the sequence of its four stages. -/
def _az_cbor_reader_process_number (r : az_cbor_reader) : AzResult × az_cbor_reader :=
  let token := _get_remaining_cbor r
  let next_byte := az_span_ptr_get token 0
  match _az_cbor_number_minus_stage r token next_byte with
  | .error out => out
  | .ok (r, token, current_consumed, total_consumed, next_byte) =>
    match _az_cbor_number_int_stage r token current_consumed total_consumed next_byte with
    | .error out => out
    | .ok (r, token, current_consumed, total_consumed, next_byte) =>
      match _az_cbor_number_dot_stage r token current_consumed total_consumed next_byte with
      | .error out => out
      | .ok (r, token, current_consumed, total_consumed, _) =>
        _az_cbor_number_exp_stage r token current_consumed total_consumed

/-- The `while (true)` loop of `_az_cbor_reader_process_literal`, modelled with
fuel; the returned tuple is (result, reader, `token` — the last compared
sub-slice, `already_matched`, `max_comparable_size`). -/
def _az_cbor_reader_process_literal_loop (fuel : Nat) (r : az_cbor_reader)
    (token literal : List Nat) (already_matched : Nat) :
    AzResult × az_cbor_reader × List Nat × Nat × Nat :=
  match fuel with
  | 0 => (.unexpectedEnd, r, token, already_matched, 0)
  | Nat.succ fuel =>
    let token_size := az_span_size token
    let max_comparable_size := _az_min token_size (az_span_size literal - already_matched)
    let token := az_span_slice token 0 max_comparable_size
    if az_span_is_content_equal token
        (az_span_slice literal already_matched (already_matched + max_comparable_size))
        = false then
      (.unexpectedChar, r, token, already_matched, max_comparable_size)
    else
      let already_matched := already_matched + max_comparable_size
      if already_matched = az_span_size literal then
        (.ok, r, token, already_matched, max_comparable_size)
      else
        match _az_cbor_reader_get_next_buffer r token false with
        | (.ok, r, token) =>
          _az_cbor_reader_process_literal_loop fuel r token literal already_matched
        | (res, r, _) => (res, r, token, already_matched, max_comparable_size)

/-- `_az_cbor_reader_process_literal` of `az_cbor_reader.c`. -/
def _az_cbor_reader_process_literal (r : az_cbor_reader) (literal : List Nat)
    (kind : az_cbor_token_kind) : AzResult × az_cbor_reader :=
  let token := _get_remaining_cbor r
  match _az_cbor_reader_process_literal_loop (r.number_of_buffers + 1) r token literal 0 with
  | (.ok, r, token, _, max_comparable_size) =>
    (.ok, _az_cbor_reader_update_state r kind token max_comparable_size (az_span_size literal))
  | (res, r, _, _, _) => (res, r)

/-- The bytes of the C string literal of the keyword false. -/
def literal_false : List Nat := [0x66, 0x61, 0x6C, 0x73, 0x65]

/-- The bytes of the C string literal of the keyword true. -/
def literal_true : List Nat := [0x74, 0x72, 0x75, 0x65]

/-- The bytes of the C string literal of the keyword null. -/
def literal_null : List Nat := [0x6E, 0x75, 0x6C, 0x6C]

/-- `_az_cbor_reader_process_value` of `az_cbor_reader.c`.  As in the source:
the commented-out JSON branches are dropped; the text-string branch computes a
length from the previous token's slice and discards it; the map and array
branches write `element_type` / `element_len` (reading the length bytes from
the previous token's slice) after `_az_cbor_reader_process_container_start`
returns, whether or not it succeeded. -/
def _az_cbor_reader_process_value (r : az_cbor_reader) (next_byte : Nat) :
    AzResult × az_cbor_reader :=
  if 0x60 ≤ next_byte ∧ next_byte ≤ 0x7F then
    let _unused := _az_cbor_get_length ((next_byte + 256 - 0x80) % 256) r.token.slice
    _az_cbor_reader_process_string r
  else if 0xA0 ≤ next_byte ∧ next_byte ≤ 0xBF then
    let gl := _az_cbor_get_length (next_byte - 0xA0) r.token.slice
    let token_element_len := gl.2.1
    let result := _az_cbor_reader_process_container_start r .beginObject
      _az_cbor_stack_item.object
    let r := result.2
    let r :=
      { r with
        element_type := updFun r.element_type r.bit_stack.current_depth 0xA0,
        element_len := updFun r.element_len r.bit_stack.current_depth token_element_len }
    (result.1, r)
  else if 0x80 ≤ next_byte ∧ next_byte ≤ 0x9F then
    let gl := _az_cbor_get_length (next_byte - 0x80) r.token.slice
    let token_element_len := gl.2.1
    let result := _az_cbor_reader_process_container_start r .beginArray
      _az_cbor_stack_item.array
    let r := result.2
    let r :=
      { r with
        element_type := updFun r.element_type r.bit_stack.current_depth 0x80,
        element_len := updFun r.element_len r.bit_stack.current_depth token_element_len }
    (result.1, r)
  else if isdigit next_byte = true ∨ next_byte = 0x2D then
    _az_cbor_reader_process_number r
  else if next_byte = 0x66 then
    _az_cbor_reader_process_literal r literal_false .tokFalse
  else if next_byte = 0x74 then
    _az_cbor_reader_process_literal r literal_true .tokTrue
  else if next_byte = 0x6E then
    _az_cbor_reader_process_literal r literal_null .tokNull
  else
    (.unexpectedChar, r)

/-- `_az_cbor_reader_read_first_token` of `az_cbor_reader.c`.  In the map
branch the source passes `len_bytes + 1` to `_az_cbor_reader_update_state` as
the segment consumption; in the array branch it passes `len_bytes` and then
adds `1 + len_bytes` to `bytes_consumed` directly (so `total_bytes_consumed`
misses the header byte there). -/
def _az_cbor_reader_read_first_token (r : az_cbor_reader) (cbor : List Nat)
    (first_byte : Nat) : AzResult × az_cbor_reader :=
  if 0xA0 ≤ first_byte ∧ first_byte < 0xBB then
    -- map
    let r := { r with bit_stack := _az_cbor_stack_push r.bit_stack _az_cbor_stack_item.object }
    match _az_cbor_get_length (first_byte - 0xA0) cbor with
    | (.ok, token_element_len, token_header_len) =>
      let len_bytes := token_header_len
      let r :=
        { r with
          element_type := updFun r.element_type r.bit_stack.current_depth 0xA0,
          element_len := updFun r.element_len r.bit_stack.current_depth token_element_len }
      let r := _az_cbor_reader_update_state r .beginObject
        (az_span_slice cbor 0 (1 + len_bytes)) (len_bytes + 1) (len_bytes + 1)
      (.ok, { r with is_complex_cbor := true })
    | (res, _, _) => (res, r)
  else if 0x80 ≤ first_byte ∧ first_byte < 0x9F then
    -- array
    let r := { r with bit_stack := _az_cbor_stack_push r.bit_stack _az_cbor_stack_item.array }
    match _az_cbor_get_length (first_byte - 0x80) cbor with
    | (.ok, token_element_len, token_header_len) =>
      let len_bytes := token_header_len
      let r :=
        { r with
          element_type := updFun r.element_type r.bit_stack.current_depth 0x80,
          element_len := updFun r.element_len r.bit_stack.current_depth token_element_len }
      let r := _az_cbor_reader_update_state r .beginArray
        (az_span_slice cbor 0 (1 + len_bytes)) len_bytes len_bytes
      let r := { r with is_complex_cbor := true }
      (.ok, { r with bytes_consumed := r.bytes_consumed + (1 + len_bytes) })
    | (res, _, _) => (res, r)
  else
    _az_cbor_reader_process_value r first_byte

/-- `_az_cbor_reader_process_next_byte` of `az_cbor_reader.c` (the source
returns `AZ_ERROR_JSON_READER_DONE` on the depth-0 path, the done-signal of the
spec-modelled result type). -/
def _az_cbor_reader_process_next_byte (r : az_cbor_reader) (next_byte : Nat) :
    AzResult × az_cbor_reader :=
  if r.bit_stack.current_depth = 0 then
    (.readerDone, r)
  else if r.element_len r.bit_stack.current_depth ≠ 0 then
    let r :=
      { r with element_len := (updFun r.element_len r.bit_stack.current_depth
          (r.element_len r.bit_stack.current_depth - 1)) }
    if r.element_type r.bit_stack.current_depth = 0xA0 then
      _az_cbor_reader_process_property_name r
    else
      _az_cbor_reader_process_value r next_byte
  else if r.element_type r.bit_stack.current_depth = 0xA0 then
    _az_cbor_reader_process_container_end r .endObject
  else if r.element_type r.bit_stack.current_depth = 0x80 then
    _az_cbor_reader_process_container_end r .endArray
  else
    (.unexpectedChar, r)

/-- The bounds condition of the unchecked fetch
`az_span_ptr(cbor)[bytes_consumed]` in `az_cbor_reader_next_token`: the fetch
is executed whenever the early-return guard `az_span_size(cbor) < 1` is not
taken, and it is in bounds only when `bytes_consumed` is below the buffer
size. -/
def az_cbor_reader_next_token_fetch_in_bounds (r : az_cbor_reader) : Prop :=
  az_span_size r.cbor_buffer < 1 ∨ r.bytes_consumed < az_span_size r.cbor_buffer

/-- `az_cbor_reader_next_token` of `az_cbor_reader.c`. -/
def az_cbor_reader_next_token (r : az_cbor_reader) : AzResult × az_cbor_reader :=
  let cbor := r.cbor_buffer
  if az_span_size cbor < 1 then
    if r.token.kind = .none ∨ r.bit_stack.current_depth ≠ 0 then (.unexpectedEnd, r)
    else (.readerDone, r)
  else
    let r :=
      { r with token :=
          { r.token with
            start_buffer_index := -1, start_buffer_offset := -1,
            end_buffer_index := -1, end_buffer_offset := -1 } }
    let first_byte := az_span_ptr_get cbor r.bytes_consumed
    match r.token.kind with
    | .none => _az_cbor_reader_read_first_token r cbor first_byte
    | .beginObject =>
      if r.element_len r.bit_stack.current_depth = 0 then
        _az_cbor_reader_process_container_end r .endObject
      else
        let r :=
          { r with element_len := (updFun r.element_len r.bit_stack.current_depth
              (r.element_len r.bit_stack.current_depth - 1)) }
        _az_cbor_reader_process_property_name r
    | .beginArray =>
      if r.element_len r.bit_stack.current_depth = 0 then
        _az_cbor_reader_process_container_end r .endArray
      else
        let r :=
          { r with element_len := (updFun r.element_len r.bit_stack.current_depth
              (r.element_len r.bit_stack.current_depth - 1)) }
        _az_cbor_reader_process_value r first_byte
    | .propertyName => _az_cbor_reader_process_value r first_byte
    | .endObject => _az_cbor_reader_process_next_byte r first_byte
    | .endArray => _az_cbor_reader_process_next_byte r first_byte
    | .string => _az_cbor_reader_process_next_byte r first_byte
    | .number => _az_cbor_reader_process_next_byte r first_byte
    | .tokTrue => _az_cbor_reader_process_next_byte r first_byte
    | .tokFalse => _az_cbor_reader_process_next_byte r first_byte
    | .tokNull => _az_cbor_reader_process_next_byte r first_byte

/-- The `do`/`while` loop of `az_cbor_reader_skip_children`, modelled with
fuel. -/
def _az_cbor_reader_skip_children_loop (fuel : Nat) (depth : Int) (r : az_cbor_reader) :
    AzResult × az_cbor_reader :=
  match fuel with
  | 0 => (.unexpectedEnd, r)
  | Nat.succ fuel =>
    match az_cbor_reader_next_token r with
    | (.ok, r) =>
      if depth ≤ r.bit_stack.current_depth then
        _az_cbor_reader_skip_children_loop fuel depth r
      else (.ok, r)
    | (res, r) => (res, r)

/-- `az_cbor_reader_skip_children` of `az_cbor_reader.c`, with the loop's fuel
made explicit. -/
def az_cbor_reader_skip_children (fuel : Nat) (r : az_cbor_reader) :
    AzResult × az_cbor_reader :=
  let step :=
    if r.token.kind = .propertyName then az_cbor_reader_next_token r
    else (.ok, r)
  match step with
  | (.ok, r) =>
    if r.token.kind = .beginObject ∨ r.token.kind = .beginArray then
      _az_cbor_reader_skip_children_loop fuel r.bit_stack.current_depth r
    else (.ok, r)
  | (res, r) => (res, r)

/-! ### Concrete execution traces used by the theorems below -/

/-- The single-buffer reader over the empty-map payload 0xA0. -/
def trace_map_r0 : az_cbor_reader := az_cbor_reader_init [0xA0]

/-- First advance on the empty-map payload. -/
def trace_map_s1 : AzResult × az_cbor_reader := az_cbor_reader_next_token trace_map_r0

/-- Second advance on the empty-map payload. -/
def trace_map_s2 : AzResult × az_cbor_reader := az_cbor_reader_next_token trace_map_s1.2

/-- Third advance on the empty-map payload. -/
def trace_map_s3 : AzResult × az_cbor_reader := az_cbor_reader_next_token trace_map_s2.2

/-- The single-buffer reader over the one-pair map payload 0xA1 0x61 0x6B 0xF5
(a map with the single entry string "k" mapped to the simple value true). -/
def trace_pair_r0 : az_cbor_reader := az_cbor_reader_init [0xA1, 0x61, 0x6B, 0xF5]

/-- First advance on the one-pair map payload. -/
def trace_pair_s1 : AzResult × az_cbor_reader := az_cbor_reader_next_token trace_pair_r0

/-- Second advance on the one-pair map payload. -/
def trace_pair_s2 : AzResult × az_cbor_reader := az_cbor_reader_next_token trace_pair_s1.2

/-- Third advance on the one-pair map payload. -/
def trace_pair_s3 : AzResult × az_cbor_reader := az_cbor_reader_next_token trace_pair_s2.2

/-- The single-buffer reader over the empty-array payload 0x80. -/
def trace_arr_r0 : az_cbor_reader := az_cbor_reader_init [0x80]

/-- First advance on the empty-array payload. -/
def trace_arr_s1 : AzResult × az_cbor_reader := az_cbor_reader_next_token trace_arr_r0

/-! ### The claims -/

/-- C1 (code bug): the header-length decoder does not follow the §4.4 table.
Because the cascade's second branch `else if (type_id >= 0x18)` captures every
additional-info value from 24 up, the decoder returns `Ok` with a 1-byte
length read for ai = 25, 26, 27 and 31 alike, where the claim demands a 2-byte
big-endian read for 25, a 4-byte big-endian read for 26 and `UnexpectedChar`
for 27..31; the immediate range 0..23 and ai = 24 behave as claimed. -/
theorem C1_get_length_code_bug :
    _az_cbor_get_length 25 [0x79, 1, 2] = (.ok, 1, 1) ∧
    _az_cbor_get_length 26 [0x7A, 1, 2, 3, 4] = (.ok, 1, 1) ∧
    _az_cbor_get_length 27 [0x7B, 1, 2, 3, 4, 5, 6, 7, 8] = (.ok, 1, 1) ∧
    _az_cbor_get_length 28 [0x7C, 9] = (.ok, 9, 1) ∧
    _az_cbor_get_length 31 [0x7F, 9] = (.ok, 9, 1) ∧
    _az_cbor_get_length 23 [0x77] = (.ok, 23, 0) ∧
    _az_cbor_get_length 24 [0x78, 200] = (.ok, 200, 1) := by
  decide

/-- C2 (code bug): the reader does not recognize the simple-value bytes.  Each
of 0xF4, 0xF5, 0xF6 as a payload fails the advance with `UnexpectedChar`
(the value dispatcher only attempts the ASCII literals, and those are shadowed
by the text-string range), and on the map payload 0xA1 0x61 0x6B 0xF5 the
advance sequence is `BeginObject`, `PropertyName` of the byte 0x6B, then
`UnexpectedChar` instead of the claimed `True`. -/
theorem C2_simple_values_code_bug :
    (az_cbor_reader_next_token (az_cbor_reader_init [0xF4])).1 = .unexpectedChar ∧
    (az_cbor_reader_next_token (az_cbor_reader_init [0xF5])).1 = .unexpectedChar ∧
    (az_cbor_reader_next_token (az_cbor_reader_init [0xF6])).1 = .unexpectedChar ∧
    trace_pair_s1.1 = .ok ∧ trace_pair_s1.2.token.kind = .beginObject ∧
    trace_pair_s2.1 = .ok ∧ trace_pair_s2.2.token.kind = .propertyName ∧
    trace_pair_s2.2.token.slice = [0x6B] ∧
    trace_pair_s3.1 = .unexpectedChar := by
  decide

/-- C3 (code bug): unsigned-integer heads are not decoded as numbers.  The
value dispatcher has no branch for the binary heads 0x00..0x1B (its number
branch requires an ASCII digit or minus sign), so the immediate heads 0x01 and
0x17 and the 1-byte head 0x18 0x2A all fail the advance with `UnexpectedChar`
instead of producing a `Number` token. -/
theorem C3_uint_heads_code_bug :
    (az_cbor_reader_next_token (az_cbor_reader_init [0x01])).1 = .unexpectedChar ∧
    (az_cbor_reader_next_token (az_cbor_reader_init [0x17])).1 = .unexpectedChar ∧
    (az_cbor_reader_next_token (az_cbor_reader_init [0x18, 0x2A])).1 = .unexpectedChar := by
  decide

/-- C4, counterexample: on the input 0xA0 the bit-stack depth after the first
`az_cbor_reader_next_token` call is 1, not 0 as the claimed after-call value
sequence 0, 1, 0 demands. -/
theorem C4_counterexample :
    ¬ ((az_cbor_reader_next_token (az_cbor_reader_init [0xA0])).2.bit_stack.current_depth
      = 0) := by
  decide

/-- C4, amended: on the single-byte input 0xA0 successive advances return `Ok`
with kind `BeginObject`, `Ok` with kind `EndObject`, then the `ReaderDone`
result, and the bit-stack depth is 0 before the calls, 1 after the first call,
and 0 after the second and third calls. -/
theorem C4_empty_map_trace :
    trace_map_r0.bit_stack.current_depth = 0 ∧
    trace_map_s1.1 = .ok ∧ trace_map_s1.2.token.kind = .beginObject ∧
    trace_map_s1.2.bit_stack.current_depth = 1 ∧
    trace_map_s2.1 = .ok ∧ trace_map_s2.2.token.kind = .endObject ∧
    trace_map_s2.2.bit_stack.current_depth = 0 ∧
    trace_map_s3.1 = .readerDone ∧
    trace_map_s3.2.bit_stack.current_depth = 0 := by
  decide

/-- C5, counterexample: on the stack with word 2 and depth 2, the low bit of
the word before any shift is 0, so the claim demands that pop return the array
kind; the source pops the object kind (it shifts first and reads the low bit
afterwards). -/
theorem C5_counterexample :
    ¬ ((_az_cbor_stack_pop { az_cbor_stack := 2, current_depth := 2 }).1 =
      (if (2 : Nat) &&& 1 ≠ 0 then _az_cbor_stack_item.object
        else _az_cbor_stack_item.array)) := by
  decide

/-- C5, amended: for every bit stack with depth at least 1, pop first shifts
the word right by one bit and decrements the depth by one, and returns the
kind denoted by the low bit of the word after the shift (the kind of the new
top, i.e. the parent container), not the bit of the element being popped. -/
theorem C5_pop_amended (s : _az_cbor_bit_stack) (h : 1 ≤ s.current_depth) :
    _az_cbor_stack_pop s =
      ((if s.az_cbor_stack >>> 1 &&& 1 ≠ 0 then _az_cbor_stack_item.object
          else _az_cbor_stack_item.array),
        { az_cbor_stack := s.az_cbor_stack >>> 1, current_depth := s.current_depth - 1 }) := by
  have hne : s.current_depth ≠ 0 := by omega
  unfold _az_cbor_stack_pop
  simp [hne]

/-- C5, witness: the amended pop theorem applied at the concrete stack with
word 2 and depth 2. -/
theorem C5_pop_amended_witness :
    1 ≤ ({ az_cbor_stack := 2, current_depth := 2 } : _az_cbor_bit_stack).current_depth ∧
    _az_cbor_stack_pop { az_cbor_stack := 2, current_depth := 2 } =
      ((if (2 : Nat) >>> 1 &&& 1 ≠ 0 then _az_cbor_stack_item.object
          else _az_cbor_stack_item.array),
        { az_cbor_stack := (2 : Nat) >>> 1, current_depth := (2 : Int) - 1 }) :=
  ⟨by decide, C5_pop_amended { az_cbor_stack := 2, current_depth := 2 } (by decide)⟩

/-- C6, counterexample: the first token read from the single-buffer payload
0xA0 has `start_buffer_index = -1` (never recorded, the token lies in one
segment) and `end_buffer_index = 0`, so its start index is strictly below its
end index while `is_multisegment` is `false` — refuting the claimed
equivalence at this token. -/
theorem C6_counterexample :
    trace_map_s1.1 = .ok ∧
    trace_map_s1.2.token.start_buffer_index < trace_map_s1.2.token.end_buffer_index ∧
    trace_map_s1.2.token.is_multisegment = false := by
  decide

/-- C6, amended: for every token produced by the state-update helper (hence by
every successful advance), `is_multisegment` is `true` iff the token's
`start_buffer_index` was recorded (is not the -1 sentinel) and is strictly
below its `end_buffer_index`; for a token contained in a single segment the
start index stays -1 and the flag is `false` even though -1 is below every
recorded end index. -/
theorem C6_is_multisegment_amended (r : az_cbor_reader) (k : az_cbor_token_kind)
    (sl : List Nat) (csc consumed : Nat) :
    (_az_cbor_reader_update_state r k sl csc consumed).token.is_multisegment = true ↔
      (r.token.start_buffer_index ≠ -1 ∧
        r.token.start_buffer_index <
          (_az_cbor_reader_update_state r k sl csc consumed).token.end_buffer_index) := by
  unfold _az_cbor_reader_update_state
  simp

/-- C7 (code bug): on the single-buffer payload 0x80 the first advance
succeeds with `BeginArray`, after which `bytes_consumed = 1` but
`total_bytes_consumed = 0`: the array branch of the first-token reader adds
the header byte to `bytes_consumed` outside the state-update helper, so the
claimed equality of `total_bytes_consumed` with the per-advance consumption
sum (and with `bytes_consumed` on a single-buffer reader) fails. -/
theorem C7_total_bytes_code_bug :
    trace_arr_s1.1 = .ok ∧ trace_arr_s1.2.token.kind = .beginArray ∧
    trace_arr_s1.2.number_of_buffers = 1 ∧
    trace_arr_s1.2.bytes_consumed = 1 ∧
    trace_arr_s1.2.total_bytes_consumed = 0 := by
  decide

/-- C10 (code bug): on the single-buffer payload 0xA0, after the two
successful advances the reader has consumed the whole buffer
(`bytes_consumed = 1 = size`), yet the third `az_cbor_reader_next_token` call
— the one that returns the `ReaderDone` result — is not stopped by the
`az_span_size(cbor) < 1` early return (the whole-buffer size is 1) and
executes the fetch `az_span_ptr(cbor)[bytes_consumed]` out of bounds. -/
theorem C10_oob_fetch_code_bug :
    az_span_size trace_map_s2.2.cbor_buffer = 1 ∧
    trace_map_s2.2.bytes_consumed = 1 ∧
    ¬ az_cbor_reader_next_token_fetch_in_bounds trace_map_s2.2 ∧
    (az_cbor_reader_next_token trace_map_s2.2).1 = .readerDone := by
  unfold az_cbor_reader_next_token_fetch_in_bounds
  decide

/-- C9: the chunk-advance helper fails with `UnexpectedEnd` exactly when no
further segment exists — `buffer_index ≥ number_of_buffers - 1`, which holds
on every call for a single-segment reader — or when the next segment is
empty; in every other case it returns `Ok`, advances `buffer_index` to the
next segment, installs that segment and resets the in-segment consumed
counter to zero. -/
theorem C9_get_next_buffer (r : az_cbor_reader) (remaining : List Nat) (sw : Bool) :
    ((_az_cbor_reader_get_next_buffer r remaining sw).1 = .unexpectedEnd ↔
      (r.buffer_index ≥ r.number_of_buffers - 1 ∨
        az_span_size (r.cbor_buffers.getD (r.buffer_index + 1) []) = 0)) ∧
    ((_az_cbor_reader_get_next_buffer r remaining sw).1 ≠ .unexpectedEnd →
      (_az_cbor_reader_get_next_buffer r remaining sw).1 = .ok ∧
      (_az_cbor_reader_get_next_buffer r remaining sw).2.1.buffer_index
        = r.buffer_index + 1 ∧
      (_az_cbor_reader_get_next_buffer r remaining sw).2.1.bytes_consumed = 0 ∧
      (_az_cbor_reader_get_next_buffer r remaining sw).2.1.cbor_buffer
        = r.cbor_buffers.getD (r.buffer_index + 1) []) := by
  simp only [_az_cbor_reader_get_next_buffer, _get_remaining_cbor, az_span_slice_to_end,
    az_span_size]
  split_ifs <;> simp_all

/-- C9, witness: the helper applied to a two-segment reader positioned in its
first (non-final) segment, whose second segment is non-empty: the advance
succeeds. -/
theorem C9_get_next_buffer_witness :
    (_az_cbor_reader_get_next_buffer (az_cbor_reader_chunked_init [[0xA0], [0x01]]) [] false).1
      ≠ .unexpectedEnd ∧
    ((_az_cbor_reader_get_next_buffer (az_cbor_reader_chunked_init [[0xA0], [0x01]]) [] false).1
        = .ok ∧
      (_az_cbor_reader_get_next_buffer (az_cbor_reader_chunked_init [[0xA0], [0x01]])
        [] false).2.1.buffer_index = 1 ∧
      (_az_cbor_reader_get_next_buffer (az_cbor_reader_chunked_init [[0xA0], [0x01]])
        [] false).2.1.bytes_consumed = 0 ∧
      (_az_cbor_reader_get_next_buffer (az_cbor_reader_chunked_init [[0xA0], [0x01]])
        [] false).2.1.cbor_buffer = [0x01]) :=
  ⟨by decide, by
    have h := (C9_get_next_buffer (az_cbor_reader_chunked_init [[0xA0], [0x01]]) [] false).2
      (by decide)
    exact ⟨h.1, h.2.1, h.2.2.1, h.2.2.2⟩⟩

/-! ### C8: the depth invariant -/

theorem get_length_result_ok (t : Nat) (p : List Nat) :
    (_az_cbor_get_length t p).1 = .ok := by
  unfold _az_cbor_get_length
  split_ifs <;> first | rfl | omega

theorem update_state_bit_stack (r : az_cbor_reader) (k : az_cbor_token_kind)
    (sl : List Nat) (a b : Nat) :
    (_az_cbor_reader_update_state r k sl a b).bit_stack = r.bit_stack := rfl

theorem update_state_kind (r : az_cbor_reader) (k : az_cbor_token_kind)
    (sl : List Nat) (a b : Nat) :
    (_az_cbor_reader_update_state r k sl a b).token.kind = k := rfl

theorem gnb_frame {r : az_cbor_reader} {rem : List Nat} {sw : Bool}
    {res : AzResult} {r' : az_cbor_reader} {rem' : List Nat}
    (h : _az_cbor_reader_get_next_buffer r rem sw = (res, r', rem')) :
    r'.bit_stack = r.bit_stack ∧ r'.token.kind = r.token.kind := by
  have hs : (_az_cbor_reader_get_next_buffer r rem sw).2.1.bit_stack = r.bit_stack := by
    simp only [_az_cbor_reader_get_next_buffer]
    split_ifs <;> rfl
  have hk : (_az_cbor_reader_get_next_buffer r rem sw).2.1.token.kind = r.token.kind := by
    simp only [_az_cbor_reader_get_next_buffer]
    split_ifs <;> rfl
  rw [h] at hs hk
  exact ⟨hs, hk⟩

theorem validate_frame {r : az_cbor_reader} {rem : List Nat} {cc : Nat}
    {res : AzResult} {r' : az_cbor_reader} {rem' : List Nat} {cc' : Nat}
    (h : _az_validate_next_byte_is_digit r rem cc = (res, r', rem', cc')) :
    r'.bit_stack = r.bit_stack ∧ r'.token.kind = r.token.kind := by
  rcases hg : _az_cbor_reader_get_next_buffer r rem false with ⟨gres, gr, grem⟩
  obtain ⟨hgs, hgk⟩ := gnb_frame hg
  simp only [_az_validate_next_byte_is_digit, hg] at h
  cases gres <;> dsimp only at h <;> split_ifs at h <;> dsimp only at h <;>
    (try split_ifs at h) <;>
    (simp only [Prod.mk.injEq] at h; obtain ⟨h1, h2, h3⟩ := h; subst h2; simp_all)

theorem consume_digits_frame (fuel : Nat) (r : az_cbor_reader) (token : List Nat)
    (cc tc : Nat) :
    (_az_cbor_reader_consume_digits fuel r token cc tc).1.bit_stack = r.bit_stack ∧
    (_az_cbor_reader_consume_digits fuel r token cc tc).1.token.kind = r.token.kind := by
  induction fuel generalizing r token cc tc with
  | zero => exact ⟨rfl, rfl⟩
  | succ fuel ih =>
    rcases hg : _az_cbor_reader_get_next_buffer r token false with ⟨gres, gr, grem⟩
    obtain ⟨hgs, hgk⟩ := gnb_frame hg
    simp only [_az_cbor_reader_consume_digits, hg]
    split_ifs
    · cases gres <;> dsimp only
      · exact ⟨(ih gr grem 0 _).1.trans hgs, (ih gr grem 0 _).2.trans hgk⟩
      all_goals exact ⟨hgs, hgk⟩
    · exact ⟨rfl, rfl⟩

theorem update_number_frame {r : az_cbor_reader} {sl : List Nat} {cc tc : Nat}
    {res : AzResult} {r' : az_cbor_reader}
    (h : _az_cbor_reader_update_number_state_if_single_value r sl cc tc = (res, r')) :
    r'.bit_stack = r.bit_stack ∧
      (r'.token.kind = r.token.kind ∨ r'.token.kind = .number) := by
  simp only [_az_cbor_reader_update_number_state_if_single_value] at h
  split_ifs at h <;> simp only [Prod.mk.injEq] at h <;> obtain ⟨h1, h2⟩ := h <;> subst h2
  · exact ⟨rfl, Or.inl rfl⟩
  · exact ⟨update_state_bit_stack .., Or.inr (update_state_kind ..)⟩

theorem process_string_frame {r : az_cbor_reader} {res : AzResult} {r' : az_cbor_reader}
    (h : _az_cbor_reader_process_string r = (res, r')) :
    r'.bit_stack = r.bit_stack ∧
      (r'.token.kind = r.token.kind ∨ r'.token.kind = .string) := by
  rcases hg1 : _az_cbor_reader_get_next_buffer r (_get_remaining_cbor r) false
    with ⟨g1res, g1r, g1rem⟩
  obtain ⟨h1s, h1k⟩ := gnb_frame hg1
  simp only [_az_cbor_reader_process_string, hg1] at h
  split_ifs at h
  · -- initial refill taken
    cases g1res <;> dsimp only at h
    · -- refill succeeded: the body runs on (g1r, g1rem)
      rcases hgl : _az_cbor_get_length ((az_span_ptr_get g1rem 0 + 256 - 0x60) % 256) g1rem
        with ⟨lres, slen, hlen⟩
      have hok := get_length_result_ok ((az_span_ptr_get g1rem 0 + 256 - 0x60) % 256) g1rem
      rw [hgl] at hok
      dsimp only at hok
      subst hok
      rw [hgl] at h
      dsimp only at h
      rcases hg2 : _az_cbor_reader_get_next_buffer g1r g1rem false with ⟨g2res, g2r, g2rem⟩
      obtain ⟨h2s, h2k⟩ := gnb_frame hg2
      rw [hg2] at h
      split_ifs at h <;> cases g2res <;> dsimp only at h <;>
        simp only [Prod.mk.injEq] at h <;> obtain ⟨h1, h2⟩ := h <;> subst h2 <;>
        simp_all [update_state_bit_stack, update_state_kind]
    all_goals
      (simp only [Prod.mk.injEq] at h; obtain ⟨h1, h2⟩ := h; subst h2; simp_all)
  · -- no initial refill: the body runs on (r, remaining)
    dsimp only at h
    rcases hgl : _az_cbor_get_length
        ((az_span_ptr_get (_get_remaining_cbor r) 0 + 256 - 0x60) % 256)
        (_get_remaining_cbor r) with ⟨lres, slen, hlen⟩
    have hok := get_length_result_ok
      ((az_span_ptr_get (_get_remaining_cbor r) 0 + 256 - 0x60) % 256) (_get_remaining_cbor r)
    rw [hgl] at hok
    dsimp only at hok
    subst hok
    rw [hgl] at h
    dsimp only at h
    rcases hg2 : _az_cbor_reader_get_next_buffer r (_get_remaining_cbor r) false
      with ⟨g2res, g2r, g2rem⟩
    obtain ⟨h2s, h2k⟩ := gnb_frame hg2
    rw [hg2] at h
    split_ifs at h <;> cases g2res <;> dsimp only at h <;>
      simp only [Prod.mk.injEq] at h <;> obtain ⟨h1, h2⟩ := h <;> subst h2 <;>
      simp_all [update_state_bit_stack, update_state_kind]

/-- The depth invariant for C8: the depth is within bounds, and a reader whose
last token kind is still `none` (no token read yet) has an empty stack. -/
def ReaderDepthInv (r : az_cbor_reader) : Prop :=
  0 ≤ r.bit_stack.current_depth ∧ r.bit_stack.current_depth ≤ 64 ∧
    (r.token.kind = az_cbor_token_kind.none → r.bit_stack.current_depth = 0)

theorem inv_of_frame {r r' : az_cbor_reader} (hs : r'.bit_stack = r.bit_stack)
    (hk : r'.token.kind = r.token.kind ∨ r'.token.kind ≠ az_cbor_token_kind.none)
    (h : ReaderDepthInv r) : ReaderDepthInv r' := by
  obtain ⟨h0, h64, hn⟩ := h
  refine ⟨by rw [hs]; exact h0, by rw [hs]; exact h64, ?_⟩
  intro hnone
  rcases hk with hk | hk
  · rw [hs]; exact hn (hk ▸ hnone)
  · exact absurd hnone hk

theorem property_name_frame {r : az_cbor_reader} {res : AzResult} {r' : az_cbor_reader}
    (h : _az_cbor_reader_process_property_name r = (res, r')) :
    r'.bit_stack = r.bit_stack ∧
      (r'.token.kind = r.token.kind ∨ r'.token.kind ≠ az_cbor_token_kind.none) := by
  rcases hps : _az_cbor_reader_process_string r with ⟨pres, pr⟩
  obtain ⟨hs, hk⟩ := process_string_frame hps
  simp only [_az_cbor_reader_process_property_name, hps] at h
  cases pres <;> dsimp only at h <;> simp only [Prod.mk.injEq] at h <;>
    obtain ⟨h1, h2⟩ := h <;> subst h2
  · exact ⟨hs, Or.inr (by simp)⟩
  all_goals
    exact ⟨hs, hk.imp id (fun hx => by rw [hx]; simp)⟩

theorem number_refill_frame_error {r : az_cbor_reader} {token : List Nat} {cc tc : Nat}
    {res : AzResult} {r' : az_cbor_reader}
    (h : _az_cbor_number_refill r token cc tc = .error (res, r')) :
    r'.bit_stack = r.bit_stack ∧
      (r'.token.kind = r.token.kind ∨ r'.token.kind = .number) := by
  rcases hg : _az_cbor_reader_get_next_buffer r token false with ⟨gres, gr, grem⟩
  obtain ⟨hgs, hgk⟩ := gnb_frame hg
  simp only [_az_cbor_number_refill, hg] at h
  split_ifs at h <;> cases gres <;> simp only at h
  all_goals first
    | exact Except.noConfusion h
    | { rcases hu : _az_cbor_reader_update_number_state_if_single_value gr
          (az_span_slice token 0 cc) cc tc with ⟨ures, ur⟩
        obtain ⟨hus, huk⟩ := update_number_frame hu
        rw [hu] at h
        injection h with h
        injection h with h1 h2
        subst h2
        refine ⟨hus.trans hgs, ?_⟩
        rcases huk with hk | hk
        · exact Or.inl (hk.trans hgk)
        · exact Or.inr hk }

theorem number_refill_frame_ok {r : az_cbor_reader} {token : List Nat} {cc tc : Nat}
    {r2 : az_cbor_reader} {tok2 : List Nat} {cc2 tc2 : Nat}
    (h : _az_cbor_number_refill r token cc tc = .ok (r2, tok2, cc2, tc2)) :
    r2.bit_stack = r.bit_stack ∧ r2.token.kind = r.token.kind := by
  rcases hg : _az_cbor_reader_get_next_buffer r token false with ⟨gres, gr, grem⟩
  obtain ⟨hgs, hgk⟩ := gnb_frame hg
  simp only [_az_cbor_number_refill, hg] at h
  split_ifs at h <;> cases gres <;> (try simp only at h)
  all_goals first
    | exact Except.noConfusion h
    | { rcases hu : _az_cbor_reader_update_number_state_if_single_value gr
          (az_span_slice token 0 cc) cc tc with ⟨ures, ur⟩
        rw [hu] at h
        exact Except.noConfusion h }
    | (injection h with h; injection h with h1 h2; subst h1; exact ⟨hgs, hgk⟩)
    | (injection h with h; injection h with h1 h2; subst h1; exact ⟨rfl, rfl⟩)

theorem number_refill_propagate_frame_error {r : az_cbor_reader} {token : List Nat}
    {cc tc : Nat} {res : AzResult} {r' : az_cbor_reader}
    (h : _az_cbor_number_refill_propagate r token cc tc = .error (res, r')) :
    r'.bit_stack = r.bit_stack ∧ r'.token.kind = r.token.kind := by
  rcases hg : _az_cbor_reader_get_next_buffer r token false with ⟨gres, gr, grem⟩
  obtain ⟨hgs, hgk⟩ := gnb_frame hg
  simp only [_az_cbor_number_refill_propagate, hg] at h
  split_ifs at h <;> cases gres <;> (try simp only at h)
  all_goals first
    | exact Except.noConfusion h
    | (injection h with h; injection h with h1 h2; subst h2; exact ⟨hgs, hgk⟩)

theorem number_refill_propagate_frame_ok {r : az_cbor_reader} {token : List Nat}
    {cc tc : Nat} {r2 : az_cbor_reader} {tok2 : List Nat} {cc2 tc2 : Nat}
    (h : _az_cbor_number_refill_propagate r token cc tc = .ok (r2, tok2, cc2, tc2)) :
    r2.bit_stack = r.bit_stack ∧ r2.token.kind = r.token.kind := by
  rcases hg : _az_cbor_reader_get_next_buffer r token false with ⟨gres, gr, grem⟩
  obtain ⟨hgs, hgk⟩ := gnb_frame hg
  simp only [_az_cbor_number_refill_propagate, hg] at h
  split_ifs at h <;> cases gres <;> (try simp only at h)
  all_goals first
    | exact Except.noConfusion h
    | (injection h with h; injection h with h1 h2; subst h1; exact ⟨hgs, hgk⟩)
    | (injection h with h; injection h with h1 h2; subst h1; exact ⟨rfl, rfl⟩)

theorem number_finish_frame_error {r : az_cbor_reader} {token : List Nat} {cc tc : Nat}
    {exp : List Nat} {res : AzResult} {r' : az_cbor_reader}
    (h : _az_cbor_number_finish r token cc tc exp = .error (res, r')) :
    r'.bit_stack = r.bit_stack ∧
      (r'.token.kind = r.token.kind ∨ r'.token.kind = .number) := by
  rcases hf : _az_finished_consuming_cbor_number (az_span_ptr_get token cc) exp
    with ⟨fdone, fres⟩
  simp only [_az_cbor_number_finish, hf] at h
  cases fdone <;> cases fres <;> simp only at h
  all_goals first
    | exact Except.noConfusion h
    | (injection h with h; injection h with h1 h2; subst h2;
        exact ⟨update_state_bit_stack .., Or.inr (update_state_kind ..)⟩)
    | (injection h with h; injection h with h1 h2; subst h2; exact ⟨rfl, Or.inl rfl⟩)

theorem number_finish_frame_ok {r : az_cbor_reader} {token : List Nat} {cc tc : Nat}
    {exp : List Nat} {r2 : az_cbor_reader} {tok2 : List Nat} {cc2 tc2 nb2 : Nat}
    (h : _az_cbor_number_finish r token cc tc exp = .ok (r2, tok2, cc2, tc2, nb2)) :
    r2 = r := by
  rcases hf : _az_finished_consuming_cbor_number (az_span_ptr_get token cc) exp
    with ⟨fdone, fres⟩
  simp only [_az_cbor_number_finish, hf] at h
  cases fdone <;> cases fres <;> simp only at h
  all_goals first
    | exact Except.noConfusion h
    | (injection h with h; injection h with h1 h2; exact h1.symm)

theorem number_minus_stage_frame_error {r : az_cbor_reader} {token : List Nat} {nb : Nat}
    {res : AzResult} {r' : az_cbor_reader}
    (h : _az_cbor_number_minus_stage r token nb = .error (res, r')) :
    r'.bit_stack = r.bit_stack ∧ r'.token.kind = r.token.kind := by
  rcases hv : _az_validate_next_byte_is_digit r token 1 with ⟨vres, vr, vtok, vcc⟩
  obtain ⟨hvs, hvk⟩ := validate_frame hv
  simp only [_az_cbor_number_minus_stage, hv] at h
  split_ifs at h <;> cases vres <;> (try simp only at h)
  all_goals first
    | exact Except.noConfusion h
    | (injection h with h; injection h with h1 h2; subst h2; exact ⟨hvs, hvk⟩)

theorem number_minus_stage_frame_ok {r : az_cbor_reader} {token : List Nat} {nb : Nat}
    {r2 : az_cbor_reader} {tok2 : List Nat} {cc2 tc2 nb2 : Nat}
    (h : _az_cbor_number_minus_stage r token nb = .ok (r2, tok2, cc2, tc2, nb2)) :
    r2.bit_stack = r.bit_stack ∧ r2.token.kind = r.token.kind := by
  rcases hv : _az_validate_next_byte_is_digit r token 1 with ⟨vres, vr, vtok, vcc⟩
  obtain ⟨hvs, hvk⟩ := validate_frame hv
  simp only [_az_cbor_number_minus_stage, hv] at h
  split_ifs at h <;> cases vres <;> (try simp only at h)
  all_goals first
    | exact Except.noConfusion h
    | (injection h with h; injection h with h1 h2; subst h1; exact ⟨hvs, hvk⟩)
    | (injection h with h; injection h with h1 h2; subst h1; exact ⟨rfl, rfl⟩)

theorem number_int_stage_frame_error {r : az_cbor_reader} {token : List Nat}
    {cc tc nb : Nat} {res : AzResult} {r' : az_cbor_reader}
    (h : _az_cbor_number_int_stage r token cc tc nb = .error (res, r')) :
    r'.bit_stack = r.bit_stack ∧
      (r'.token.kind = r.token.kind ∨ r'.token.kind = .number) := by
  simp only [_az_cbor_number_int_stage] at h
  split_ifs at h
  · -- leading-zero branch
    rcases hr : _az_cbor_number_refill r token (cc + 1) (tc + 1) with rout | ⟨r1, tok1, cc1, tc1⟩
    · rw [hr] at h
      simp only at h
      injection h with h
      subst h
      exact number_refill_frame_error hr
    · rw [hr] at h
      simp only at h
      obtain ⟨h1s, h1k⟩ := number_refill_frame_ok hr
      obtain ⟨h2s, h2k⟩ := number_finish_frame_error h
      exact ⟨h2s.trans h1s, h2k.imp (fun hx => hx.trans h1k) id⟩
  · -- digits branch
    rcases hc : _az_cbor_reader_consume_digits (r.number_of_buffers + 1) r token cc tc
      with ⟨cr, ctok, ccc, ctc⟩
    have hcf := consume_digits_frame (r.number_of_buffers + 1) r token cc tc
    rw [hc] at hcf h
    simp only at h
    rcases hr : _az_cbor_number_refill cr ctok ccc ctc with rout | ⟨r1, tok1, cc1, tc1⟩
    · rw [hr] at h
      simp only at h
      injection h with h
      subst h
      obtain ⟨h1s, h1k⟩ := number_refill_frame_error hr
      exact ⟨h1s.trans hcf.1, h1k.imp (fun hx => hx.trans hcf.2) id⟩
    · rw [hr] at h
      simp only at h
      obtain ⟨h1s, h1k⟩ := number_refill_frame_ok hr
      obtain ⟨h2s, h2k⟩ := number_finish_frame_error h
      exact ⟨(h2s.trans h1s).trans hcf.1,
        h2k.imp (fun hx => (hx.trans h1k).trans hcf.2) id⟩

theorem number_int_stage_frame_ok {r : az_cbor_reader} {token : List Nat}
    {cc tc nb : Nat} {r2 : az_cbor_reader} {tok2 : List Nat} {cc2 tc2 nb2 : Nat}
    (h : _az_cbor_number_int_stage r token cc tc nb = .ok (r2, tok2, cc2, tc2, nb2)) :
    r2.bit_stack = r.bit_stack ∧ r2.token.kind = r.token.kind := by
  simp only [_az_cbor_number_int_stage] at h
  split_ifs at h
  · rcases hr : _az_cbor_number_refill r token (cc + 1) (tc + 1) with rout | ⟨r1, tok1, cc1, tc1⟩
    · rw [hr] at h
      simp only at h
      exact Except.noConfusion h
    · rw [hr] at h
      simp only at h
      obtain ⟨h1s, h1k⟩ := number_refill_frame_ok hr
      have h2 := number_finish_frame_ok h
      subst h2
      exact ⟨h1s, h1k⟩
  · rcases hc : _az_cbor_reader_consume_digits (r.number_of_buffers + 1) r token cc tc
      with ⟨cr, ctok, ccc, ctc⟩
    have hcf := consume_digits_frame (r.number_of_buffers + 1) r token cc tc
    rw [hc] at hcf h
    simp only at h
    rcases hr : _az_cbor_number_refill cr ctok ccc ctc with rout | ⟨r1, tok1, cc1, tc1⟩
    · rw [hr] at h
      simp only at h
      exact Except.noConfusion h
    · rw [hr] at h
      simp only at h
      obtain ⟨h1s, h1k⟩ := number_refill_frame_ok hr
      have h2 := number_finish_frame_ok h
      subst h2
      exact ⟨h1s.trans hcf.1, h1k.trans hcf.2⟩

theorem number_dot_stage_frame_error {r : az_cbor_reader} {token : List Nat}
    {cc tc nb : Nat} {res : AzResult} {r' : az_cbor_reader}
    (h : _az_cbor_number_dot_stage r token cc tc nb = .error (res, r')) :
    r'.bit_stack = r.bit_stack ∧
      (r'.token.kind = r.token.kind ∨ r'.token.kind = .number) := by
  rcases hv : _az_validate_next_byte_is_digit r token (cc + 1) with ⟨vres, vr, vtok, vcc⟩
  obtain ⟨hvs, hvk⟩ := validate_frame hv
  simp only [_az_cbor_number_dot_stage, hv] at h
  split_ifs at h <;> cases vres <;> (try simp only at h)
  all_goals first
    | exact Except.noConfusion h
    | (injection h with h; injection h with h1 h2; subst h2; exact ⟨hvs, Or.inl hvk⟩)
    | { rcases hc : _az_cbor_reader_consume_digits (vr.number_of_buffers + 1) vr vtok vcc
          (tc + 1) with ⟨cr, ctok, ccc, ctc⟩
        have hcf := consume_digits_frame (vr.number_of_buffers + 1) vr vtok vcc (tc + 1)
        rw [hc] at hcf h
        simp only at h
        rcases hr : _az_cbor_number_refill cr ctok ccc ctc with rout | ⟨r1, tok1, cc1, tc1⟩
        · rw [hr] at h
          simp only at h
          injection h with h
          subst h
          obtain ⟨h1s, h1k⟩ := number_refill_frame_error hr
          exact ⟨(h1s.trans hcf.1).trans hvs,
            h1k.imp (fun hx => ((hx.trans hcf.2).trans hvk)) id⟩
        · rw [hr] at h
          simp only at h
          obtain ⟨h1s, h1k⟩ := number_refill_frame_ok hr
          obtain ⟨h2s, h2k⟩ := number_finish_frame_error h
          exact ⟨((h2s.trans h1s).trans hcf.1).trans hvs,
            h2k.imp (fun hx => (((hx.trans h1k).trans hcf.2).trans hvk)) id⟩ }

theorem number_dot_stage_frame_ok {r : az_cbor_reader} {token : List Nat}
    {cc tc nb : Nat} {r2 : az_cbor_reader} {tok2 : List Nat} {cc2 tc2 nb2 : Nat}
    (h : _az_cbor_number_dot_stage r token cc tc nb = .ok (r2, tok2, cc2, tc2, nb2)) :
    r2.bit_stack = r.bit_stack ∧ r2.token.kind = r.token.kind := by
  rcases hv : _az_validate_next_byte_is_digit r token (cc + 1) with ⟨vres, vr, vtok, vcc⟩
  obtain ⟨hvs, hvk⟩ := validate_frame hv
  simp only [_az_cbor_number_dot_stage, hv] at h
  split_ifs at h <;> cases vres <;> (try simp only at h)
  all_goals first
    | exact Except.noConfusion h
    | (injection h with h; injection h with h1 h2; subst h1; exact ⟨rfl, rfl⟩)
    | { rcases hc : _az_cbor_reader_consume_digits (vr.number_of_buffers + 1) vr vtok vcc
          (tc + 1) with ⟨cr, ctok, ccc, ctc⟩
        have hcf := consume_digits_frame (vr.number_of_buffers + 1) vr vtok vcc (tc + 1)
        rw [hc] at hcf h
        simp only at h
        rcases hr : _az_cbor_number_refill cr ctok ccc ctc with rout | ⟨r1, tok1, cc1, tc1⟩
        · rw [hr] at h
          simp only at h
          exact Except.noConfusion h
        · rw [hr] at h
          simp only at h
          obtain ⟨h1s, h1k⟩ := number_refill_frame_ok hr
          have h2 := number_finish_frame_ok h
          subst h2
          exact ⟨(h1s.trans hcf.1).trans hvs, (h1k.trans hcf.2).trans hvk⟩ }

theorem number_exp_stage_frame {r : az_cbor_reader} {token : List Nat} {cc tc : Nat}
    {res : AzResult} {r' : az_cbor_reader}
    (h : _az_cbor_number_exp_stage r token cc tc = (res, r')) :
    r'.bit_stack = r.bit_stack ∧
      (r'.token.kind = r.token.kind ∨ r'.token.kind = .number) := by
  simp only [_az_cbor_number_exp_stage] at h
  rcases hp : _az_cbor_number_refill_propagate r token (cc + 1) (tc + 1)
    with pout | ⟨r1, tok1, cc1, tc1⟩
  · rw [hp] at h
    simp only at h
    rcases pout with ⟨pres, pr⟩
    obtain ⟨h1s, h1k⟩ := number_refill_propagate_frame_error hp
    injection h with h1 h2
    subst h2
    exact ⟨h1s, Or.inl h1k⟩
  · rw [hp] at h
    simp only at h
    obtain ⟨h1s, h1k⟩ := number_refill_propagate_frame_ok hp
    rcases hv : _az_validate_next_byte_is_digit r1 tok1 (cc1 + 1) with ⟨vres, vr, vtok, vcc⟩
    obtain ⟨hvs, hvk⟩ := validate_frame hv
    rw [hv] at h
    -- the sign if and the match on signStep
    have main : ∀ (rs : az_cbor_reader) (toks : List Nat) (ccs tcs : Nat),
        rs.bit_stack = r.bit_stack → rs.token.kind = r.token.kind →
        (match _az_cbor_reader_consume_digits (rs.number_of_buffers + 1) rs toks ccs tcs with
          | (r, token, current_consumed, total_consumed) =>
            match _az_cbor_number_refill r token current_consumed total_consumed with
            | .error out => out
            | .ok (r, token, current_consumed, total_consumed) =>
              if az_span_find cbor_delimiters [az_span_ptr_get token current_consumed] = -1
              then (AzResult.unexpectedChar, r)
              else (AzResult.ok, _az_cbor_reader_update_state r .number
                (az_span_slice token 0 current_consumed) current_consumed total_consumed))
          = (res, r') →
        r'.bit_stack = r.bit_stack ∧
          (r'.token.kind = r.token.kind ∨ r'.token.kind = .number) := by
      intro rs toks ccs tcs hss hsk hmain
      rcases hc : _az_cbor_reader_consume_digits (rs.number_of_buffers + 1) rs toks ccs tcs
        with ⟨cr, ctok, ccc, ctc⟩
      have hcf := consume_digits_frame (rs.number_of_buffers + 1) rs toks ccs tcs
      rw [hc] at hcf hmain
      simp only at hmain
      rcases hr : _az_cbor_number_refill cr ctok ccc ctc with ⟨rres, rr⟩ | ⟨r3, tok3, cc3, tc3⟩
      · rw [hr] at hmain
        simp only at hmain
        obtain ⟨h3s, h3k⟩ := number_refill_frame_error hr
        injection hmain with h1 h2
        subst h2
        exact ⟨(h3s.trans hcf.1).trans hss,
          h3k.imp (fun hx => (hx.trans hcf.2).trans hsk) id⟩
      · rw [hr] at hmain
        simp only at hmain
        obtain ⟨h3s, h3k⟩ := number_refill_frame_ok hr
        split_ifs at hmain <;> injection hmain with h1 h2 <;> subst h2
        · exact ⟨(h3s.trans hcf.1).trans hss,
            Or.inl ((h3k.trans hcf.2).trans hsk)⟩
        · exact ⟨(h3s.trans hcf.1).trans hss, Or.inr (update_state_kind ..)⟩
    split_ifs at h <;> cases vres <;> (try simp only at h)
    all_goals first
      | exact Except.noConfusion h
      | (injection h with h1 h2; subst h2; exact ⟨hvs.trans h1s, Or.inl (hvk.trans h1k)⟩)
      | exact main vr vtok vcc (tc1 + 1) (hvs.trans h1s) (hvk.trans h1k) h
      | exact main r1 tok1 cc1 tc1 h1s h1k h

theorem process_number_frame {r : az_cbor_reader} {res : AzResult} {r' : az_cbor_reader}
    (h : _az_cbor_reader_process_number r = (res, r')) :
    r'.bit_stack = r.bit_stack ∧
      (r'.token.kind = r.token.kind ∨ r'.token.kind = .number) := by
  simp only [_az_cbor_reader_process_number] at h
  rcases hm : _az_cbor_number_minus_stage r (_get_remaining_cbor r)
      (az_span_ptr_get (_get_remaining_cbor r) 0) with ⟨mres, mr⟩ | ⟨r1, tok1, cc1, tc1, nb1⟩
  · rw [hm] at h
    simp only at h
    obtain ⟨hms, hmk⟩ := number_minus_stage_frame_error hm
    injection h with h1 h2
    subst h2
    exact ⟨hms, Or.inl hmk⟩
  · rw [hm] at h
    simp only at h
    obtain ⟨h1s, h1k⟩ := number_minus_stage_frame_ok hm
    rcases hi : _az_cbor_number_int_stage r1 tok1 cc1 tc1 nb1
      with ⟨ires, ir⟩ | ⟨r2, tok2, cc2, tc2, nb2⟩
    · rw [hi] at h
      simp only at h
      obtain ⟨hs, hk⟩ := number_int_stage_frame_error hi
      injection h with ha hb
      subst hb
      exact ⟨hs.trans h1s, hk.imp (fun hx => hx.trans h1k) id⟩
    · rw [hi] at h
      simp only at h
      obtain ⟨h2s, h2k⟩ := number_int_stage_frame_ok hi
      rcases hd : _az_cbor_number_dot_stage r2 tok2 cc2 tc2 nb2
        with ⟨dres, dr⟩ | ⟨r3, tok3, cc3, tc3, nb3⟩
      · rw [hd] at h
        simp only at h
        obtain ⟨hs, hk⟩ := number_dot_stage_frame_error hd
        injection h with ha hb
        subst hb
        exact ⟨(hs.trans h2s).trans h1s, hk.imp (fun hx => (hx.trans h2k).trans h1k) id⟩
      · rw [hd] at h
        simp only at h
        obtain ⟨h3s, h3k⟩ := number_dot_stage_frame_ok hd
        obtain ⟨hs, hk⟩ := number_exp_stage_frame h
        exact ⟨((hs.trans h3s).trans h2s).trans h1s,
          hk.imp (fun hx => ((hx.trans h3k).trans h2k).trans h1k) id⟩

theorem literal_loop_frame (fuel : Nat) (r : az_cbor_reader) (token literal : List Nat)
    (am : Nat) :
    (_az_cbor_reader_process_literal_loop fuel r token literal am).2.1.bit_stack
      = r.bit_stack ∧
    (_az_cbor_reader_process_literal_loop fuel r token literal am).2.1.token.kind
      = r.token.kind := by
  induction fuel generalizing r token am with
  | zero => exact ⟨rfl, rfl⟩
  | succ fuel ih =>
    simp only [_az_cbor_reader_process_literal_loop]
    split_ifs
    · exact ⟨rfl, rfl⟩
    · exact ⟨rfl, rfl⟩
    · rcases hg : _az_cbor_reader_get_next_buffer r
          (az_span_slice token 0 (_az_min (az_span_size token) (az_span_size literal - am)))
          false with ⟨gres, gr, grem⟩
      obtain ⟨hgs, hgk⟩ := gnb_frame hg
      cases gres <;> dsimp only
      · exact ⟨(ih gr grem _).1.trans hgs, (ih gr grem _).2.trans hgk⟩
      all_goals exact ⟨hgs, hgk⟩

theorem literal_frame {r : az_cbor_reader} {literal : List Nat} {kind : az_cbor_token_kind}
    {res : AzResult} {r' : az_cbor_reader}
    (h : _az_cbor_reader_process_literal r literal kind = (res, r')) :
    r'.bit_stack = r.bit_stack ∧
      (r'.token.kind = r.token.kind ∨ r'.token.kind = kind) := by
  rcases hl : _az_cbor_reader_process_literal_loop (r.number_of_buffers + 1) r
      (_get_remaining_cbor r) literal 0 with ⟨lres, lr, ltok, lam, lmax⟩
  have hf := literal_loop_frame (r.number_of_buffers + 1) r (_get_remaining_cbor r) literal 0
  rw [hl] at hf
  simp only [_az_cbor_reader_process_literal, hl] at h
  cases lres <;> dsimp only at h <;> simp only [Prod.mk.injEq] at h <;>
    obtain ⟨h1, h2⟩ := h <;> subst h2
  · exact ⟨hf.1, Or.inr rfl⟩
  all_goals exact ⟨hf.1, Or.inl hf.2⟩

theorem container_start_inv {r : az_cbor_reader} {tk : az_cbor_token_kind}
    {ck : _az_cbor_stack_item} (hk : tk ≠ az_cbor_token_kind.none)
    (h : ReaderDepthInv r) :
    ReaderDepthInv (_az_cbor_reader_process_container_start r tk ck).2 := by
  obtain ⟨h0, h64, hn⟩ := h
  simp only [_az_cbor_reader_process_container_start]
  split_ifs with hd
  · exact ⟨h0, h64, hn⟩
  · refine ⟨?_, ?_, ?_⟩
    · show (0 : Int) ≤ r.bit_stack.current_depth + 1
      omega
    · show r.bit_stack.current_depth + 1 ≤ 64
      simp only [_az_MAX_cbor_STACK_SIZE] at hd
      omega
    · intro hx
      dsimp only at hx
      exact absurd hx hk

theorem container_end_inv {r : az_cbor_reader} {tk : az_cbor_token_kind}
    (hk : tk ≠ az_cbor_token_kind.none) (h : ReaderDepthInv r) :
    ReaderDepthInv (_az_cbor_reader_process_container_end r tk).2 := by
  obtain ⟨h0, h64, hn⟩ := h
  simp only [_az_cbor_reader_process_container_end]
  split_ifs with hc
  · exact ⟨h0, h64, hn⟩
  all_goals {
    refine ⟨?_, ?_, ?_⟩
    · show (0 : Int) ≤ ((_az_cbor_stack_pop r.bit_stack).2).current_depth
      simp only [_az_cbor_stack_pop]
      split_ifs with hz <;> (try dsimp only) <;> omega
    · show ((_az_cbor_stack_pop r.bit_stack).2).current_depth ≤ 64
      simp only [_az_cbor_stack_pop]
      split_ifs with hz <;> (try dsimp only) <;> omega
    · intro hx
      exact absurd hx hk }

theorem process_value_inv {r : az_cbor_reader} {b : Nat} (h : ReaderDepthInv r) :
    ReaderDepthInv (_az_cbor_reader_process_value r b).2 := by
  simp only [_az_cbor_reader_process_value]
  split_ifs with h1 h2 h3 h4 h5 h6 h7
  · rcases hs : _az_cbor_reader_process_string r with ⟨sres, sr⟩
    obtain ⟨hss, hsk⟩ := process_string_frame hs
    exact inv_of_frame hss (hsk.imp id (fun hx => by rw [hx]; simp)) h
  · exact container_start_inv (by simp) h
  · exact container_start_inv (by simp) h
  · rcases hs : _az_cbor_reader_process_number r with ⟨sres, sr⟩
    obtain ⟨hss, hsk⟩ := process_number_frame hs
    exact inv_of_frame hss (hsk.imp id (fun hx => by rw [hx]; simp)) h
  · rcases hs : _az_cbor_reader_process_literal r literal_false .tokFalse with ⟨sres, sr⟩
    obtain ⟨hss, hsk⟩ := literal_frame hs
    exact inv_of_frame hss (hsk.imp id (fun hx => by rw [hx]; simp)) h
  · rcases hs : _az_cbor_reader_process_literal r literal_true .tokTrue with ⟨sres, sr⟩
    obtain ⟨hss, hsk⟩ := literal_frame hs
    exact inv_of_frame hss (hsk.imp id (fun hx => by rw [hx]; simp)) h
  · rcases hs : _az_cbor_reader_process_literal r literal_null .tokNull with ⟨sres, sr⟩
    obtain ⟨hss, hsk⟩ := literal_frame hs
    exact inv_of_frame hss (hsk.imp id (fun hx => by rw [hx]; simp)) h
  · exact h

set_option maxRecDepth 4000 in
theorem read_first_token_inv {r : az_cbor_reader} {cbor : List Nat} {fb : Nat}
    (h : ReaderDepthInv r) (hnone : r.token.kind = az_cbor_token_kind.none) :
    ReaderDepthInv (_az_cbor_reader_read_first_token r cbor fb).2 := by
  have hd0 : r.bit_stack.current_depth = 0 := h.2.2 hnone
  simp only [_az_cbor_reader_read_first_token]
  split_ifs with h1 h2
  · rcases hgl : _az_cbor_get_length (fb - 0xA0) cbor with ⟨lres, el, hl⟩
    have hok := get_length_result_ok (fb - 0xA0) cbor
    rw [hgl] at hok
    dsimp only at hok
    subst hok
    dsimp only
    refine ⟨?_, ?_, ?_⟩
    · show (0 : Int) ≤ r.bit_stack.current_depth + 1
      omega
    · show r.bit_stack.current_depth + 1 ≤ 64
      omega
    · intro hx
      exact az_cbor_token_kind.noConfusion hx
  · rcases hgl : _az_cbor_get_length (fb - 0x80) cbor with ⟨lres, el, hl⟩
    have hok := get_length_result_ok (fb - 0x80) cbor
    rw [hgl] at hok
    dsimp only at hok
    subst hok
    dsimp only
    refine ⟨?_, ?_, ?_⟩
    · show (0 : Int) ≤ r.bit_stack.current_depth + 1
      omega
    · show r.bit_stack.current_depth + 1 ≤ 64
      omega
    · intro hx
      exact az_cbor_token_kind.noConfusion hx
  · exact process_value_inv h

theorem process_next_byte_inv {r : az_cbor_reader} {b : Nat} (h : ReaderDepthInv r) :
    ReaderDepthInv (_az_cbor_reader_process_next_byte r b).2 := by
  simp only [_az_cbor_reader_process_next_byte]
  split_ifs with h1 h2 h3 h4 h5
  · exact h
  · rcases hp : _az_cbor_reader_process_property_name
        { r with element_len := (updFun r.element_len r.bit_stack.current_depth
            (r.element_len r.bit_stack.current_depth - 1)) } with ⟨pres, pr⟩
    obtain ⟨hps, hpk⟩ := property_name_frame hp
    exact inv_of_frame hps hpk h
  · rcases hv : _az_cbor_reader_process_value
        { r with element_len := (updFun r.element_len r.bit_stack.current_depth
            (r.element_len r.bit_stack.current_depth - 1)) } b with ⟨vres, vr⟩
    have := process_value_inv (r := { r with element_len := (updFun r.element_len
        r.bit_stack.current_depth (r.element_len r.bit_stack.current_depth - 1)) }) (b := b) h
    rw [hv] at this
    exact this
  · exact container_end_inv (by simp) h
  · exact container_end_inv (by simp) h
  · exact h

theorem property_name_inv {r : az_cbor_reader} (h : ReaderDepthInv r) :
    ReaderDepthInv (_az_cbor_reader_process_property_name r).2 := by
  rcases hp : _az_cbor_reader_process_property_name r with ⟨pres, pr⟩
  obtain ⟨hps, hpk⟩ := property_name_frame hp
  exact inv_of_frame hps hpk h

set_option maxRecDepth 4000 in
theorem next_token_inv {r : az_cbor_reader} (h : ReaderDepthInv r) :
    ReaderDepthInv (az_cbor_reader_next_token r).2 := by
  simp only [az_cbor_reader_next_token]
  by_cases h1 : az_span_size r.cbor_buffer < 1
  · rw [if_pos h1]
    split_ifs <;> exact h
  · rw [if_neg h1]
    generalize hgen : ({ r with token :=
        { r.token with
          start_buffer_index := -1, start_buffer_offset := -1,
          end_buffer_index := -1, end_buffer_offset := -1 } } : az_cbor_reader) = r1
    have h' : ReaderDepthInv r1 := by
      rw [← hgen]
      exact ⟨h.1, h.2.1, h.2.2⟩
    have hk1 : r1.token.kind = r.token.kind := by rw [← hgen]
    cases hk0 : r.token.kind <;> dsimp only
    · exact read_first_token_inv h' (hk1.trans hk0)
    · split_ifs with he
      · exact container_end_inv (fun hx => az_cbor_token_kind.noConfusion hx) h'
      · exact property_name_inv ⟨h.1, h.2.1, fun hx => az_cbor_token_kind.noConfusion hx⟩
    · exact process_next_byte_inv h'
    · split_ifs with he
      · exact container_end_inv (fun hx => az_cbor_token_kind.noConfusion hx) h'
      · exact process_value_inv ⟨h.1, h.2.1, fun hx => az_cbor_token_kind.noConfusion hx⟩
    · exact process_next_byte_inv h'
    · exact process_value_inv h'
    · exact process_next_byte_inv h'
    · exact process_next_byte_inv h'
    · exact process_next_byte_inv h'
    · exact process_next_byte_inv h'
    · exact process_next_byte_inv h'

theorem skip_children_loop_inv (fuel : Nat) (depth : Int) {r : az_cbor_reader}
    (h : ReaderDepthInv r) :
    ReaderDepthInv (_az_cbor_reader_skip_children_loop fuel depth r).2 := by
  induction fuel generalizing r with
  | zero => exact h
  | succ fuel ih =>
    simp only [_az_cbor_reader_skip_children_loop]
    rcases hn : az_cbor_reader_next_token r with ⟨nres, nr⟩
    have hinv := next_token_inv h
    rw [hn] at hinv
    cases nres <;> dsimp only
    · split_ifs
      · exact ih hinv
      · exact hinv
    all_goals exact hinv

theorem skip_children_inv (fuel : Nat) {r : az_cbor_reader} (h : ReaderDepthInv r) :
    ReaderDepthInv (az_cbor_reader_skip_children fuel r).2 := by
  simp only [az_cbor_reader_skip_children]
  rcases hs : (if r.token.kind = az_cbor_token_kind.propertyName
      then az_cbor_reader_next_token r else (.ok, r)) with ⟨sres, sr⟩
  have hinv : ReaderDepthInv sr := by
    split_ifs at hs with hp
    · have := next_token_inv h
      rw [hs] at this
      exact this
    · injection hs with h1 h2
      rw [← h2]
      exact h
  cases sres <;> dsimp only
  · split_ifs
    · exact skip_children_loop_inv fuel _ hinv
    · exact hinv
  all_goals exact hinv

/-- The reader states reachable through the public lifecycle: construction by
`az_cbor_reader_init` or `az_cbor_reader_chunked_init`, followed by any
sequence of `az_cbor_reader_next_token` and `az_cbor_reader_skip_children`
operations. -/
inductive ReaderReachable : az_cbor_reader → Prop where
  | init : ∀ buf, ReaderReachable (az_cbor_reader_init buf)
  | chunked : ∀ bufs, ReaderReachable (az_cbor_reader_chunked_init bufs)
  | next : ∀ r, ReaderReachable r → ReaderReachable (az_cbor_reader_next_token r).2
  | skip : ∀ fuel r, ReaderReachable r →
      ReaderReachable (az_cbor_reader_skip_children fuel r).2

theorem reachable_inv {r : az_cbor_reader} (h : ReaderReachable r) : ReaderDepthInv r := by
  induction h with
  | init buf =>
    exact ⟨le_refl 0, by show (0 : Int) ≤ 64; norm_num, fun _ => rfl⟩
  | chunked bufs =>
    exact ⟨le_refl 0, by show (0 : Int) ≤ 64; norm_num, fun _ => rfl⟩
  | next r hr ih => exact next_token_inv ih
  | skip fuel r hr ih => exact skip_children_inv fuel ih

/-- C8: on every reader state reachable from `az_cbor_reader_init` or
`az_cbor_reader_chunked_init` through `az_cbor_reader_next_token` and
`az_cbor_reader_skip_children`, the bit-stack depth stays within the interval
from 0 to 64 (in particular it never becomes negative), and every attempt to
open a container at depth 64 or more fails with `NestingOverflow` leaving the
reader — its bit stack included — completely unchanged. -/
theorem C8_depth_bounds :
    (∀ r, ReaderReachable r →
      0 ≤ r.bit_stack.current_depth ∧ r.bit_stack.current_depth ≤ 64) ∧
    (∀ (r : az_cbor_reader) (tk : az_cbor_token_kind) (ck : _az_cbor_stack_item),
      64 ≤ r.bit_stack.current_depth →
      _az_cbor_reader_process_container_start r tk ck = (.nestingOverflow, r)) := by
  constructor
  · intro r hr
    have hinv := reachable_inv hr
    exact ⟨hinv.1, hinv.2.1⟩
  · intro r tk ck hd
    simp only [_az_cbor_reader_process_container_start, _az_MAX_cbor_STACK_SIZE]
    split_ifs with hx
    · rfl
    · exact absurd (by exact_mod_cast hd) hx

/-- C8, witness: the reachable freshly initialized reader has depth 0, and a
reader state whose depth is exactly 64 is refused a container open with
`NestingOverflow` and no state change. -/
theorem C8_depth_bounds_witness :
    (0 ≤ (az_cbor_reader_init [0xA0]).bit_stack.current_depth ∧
      (az_cbor_reader_init [0xA0]).bit_stack.current_depth ≤ 64) ∧
    (64 ≤ ({ az_cbor_reader_init [0xA0] with
        bit_stack := { az_cbor_stack := 0, current_depth := 64 } }
          : az_cbor_reader).bit_stack.current_depth ∧
      _az_cbor_reader_process_container_start
        { az_cbor_reader_init [0xA0] with
          bit_stack := { az_cbor_stack := 0, current_depth := 64 } }
        .beginObject _az_cbor_stack_item.object
        = (.nestingOverflow,
          { az_cbor_reader_init [0xA0] with
            bit_stack := { az_cbor_stack := 0, current_depth := 64 } })) :=
  ⟨C8_depth_bounds.1 (az_cbor_reader_init [0xA0]) (ReaderReachable.init [0xA0]),
    by decide,
    C8_depth_bounds.2
      { az_cbor_reader_init [0xA0] with
        bit_stack := { az_cbor_stack := 0, current_depth := 64 } }
      .beginObject _az_cbor_stack_item.object (by decide)⟩
